import Mathlib

/-!
Verification of the veneur aggregation core.

A shallow embedding, in Lean 4, of the sharded metrics-aggregation engine:
the per-shard worker (`worker.go`: `Worker.ProcessMetric`, `Worker.Flush`)
and the flush orchestrator / backend submitter (`Server.Flush`,
`Server.flushPart`).

Modelling conventions:
* Go `float64` values are modelled as `Rat`.  None of the properties proved
  here depends on floating-point rounding; they concern control flow, map
  manipulation, chunk slicing and event ordering.
* Go maps keyed by `uint32` digests are modelled as association lists
  (`List (Nat × β)`) with Go map get/set semantics (`mapGet`, `mapSet`).
* Fallible or panicking code returns `Option`: a Go runtime panic (a failed
  type assertion) is `none`.
* Side effects (log statements, statsd emissions, HTTP submissions) are
  reified as event lists returned alongside the state.
-/

set_option maxRecDepth 10000

namespace Veneur

/-! ## Data model -/

/-- Modelled from the spec: a flush record ("FlushRecord" / `DDMetric`),
the immutable output unit: metric name, tags, a kind marker, a numeric
value and the hostname applied at the orchestration layer.  The `DDMetric`
type itself is not part of the provided source files. -/
structure DDMetric where
  name : String
  tags : List String
  mtype : String
  value : Rat
  hostname : String
deriving DecidableEq

/-- The dynamic value carried by an observation: Go's `interface{}` holding
either a `float64` (modelled as `Rat`) or a `string`. -/
inductive MValue where
  | num (x : Rat)
  | str (s : String)
deriving DecidableEq

/-- An observation (`Metric` in `worker.go`): name, kind tag (`Type` in the
source, here `mtype`), tags, digest key, dynamic value and sample rate. -/
structure Metric where
  name : String
  mtype : String
  tags : List String
  digest : Nat
  value : MValue
  sampleRate : Rat
deriving DecidableEq

/-! ## Go map operations on association lists -/

/-- Go map read `mp[d]` with presence: association-list lookup. -/
def mapGet : List (Nat × β) → Nat → Option β
  | [], _ => none
  | (k, v) :: rest, d => if k = d then some v else mapGet rest d

/-- Go map write `mp[d] = b`: replace in place if present, else append. -/
def mapSet : List (Nat × β) → Nat → β → List (Nat × β)
  | [], d, b => [(d, b)]
  | (k, v) :: rest, d, b =>
      if k = d then (k, b) :: rest else (k, v) :: mapSet rest d b

/-! ## Aggregators

The `Counter`, `Gauge`, `Histo` and `Set` implementations are not among the
provided source files (only their call sites in `worker.go` are), so they
are modelled from the spec.  Each one retains its raw samples exactly — the
spec allows exact retention — and derives its flush output from them. -/

/-- Modelled from the spec: a Counter accumulates rate-adjusted occurrences;
here it retains its `(value, sampleRate)` samples and reports the
rate-adjusted total `Σ value/sampleRate` at flush. -/
structure Counter where
  name : String
  tags : List String
  samples : List (Rat × Rat)
deriving DecidableEq

def NewCounter (name : String) (tags : List String) : Counter :=
  ⟨name, tags, []⟩

def Counter.sample (c : Counter) (v : Rat) (rate : Rat) : Counter :=
  { c with samples := c.samples ++ [(v, rate)] }

/-- Modelled from the spec: counter flush reports the rate-normalized total
for the interval as one record. The `interval` argument mirrors the Go
signature `Flush(interval)`. -/
def Counter.flush (c : Counter) (_interval : Rat) : List DDMetric :=
  [⟨c.name, c.tags, "counter", (c.samples.map (fun p => p.1 / p.2)).sum, ""⟩]

/-- Modelled from the spec: a Gauge is last-write-wins; it retains the
written values (exact retention) and reports the last one at flush. -/
structure Gauge where
  name : String
  tags : List String
  samples : List Rat
deriving DecidableEq

def NewGauge (name : String) (tags : List String) : Gauge :=
  ⟨name, tags, []⟩

def Gauge.sample (g : Gauge) (v : Rat) (_rate : Rat) : Gauge :=
  { g with samples := g.samples ++ [v] }

/-- Modelled from the spec: gauge flush reports the last written value. -/
def Gauge.flush (g : Gauge) : List DDMetric :=
  match g.samples.getLast? with
  | none => []
  | some v => [⟨g.name, g.tags, "gauge", v, ""⟩]

/-- Insert into a sorted list of rationals (used for order statistics). -/
def insertSorted (x : Rat) : List Rat → List Rat
  | [] => [x]
  | y :: ys => if x ≤ y then x :: y :: ys else y :: insertSorted x ys

def sortRats (l : List Rat) : List Rat := l.foldr insertSorted []

/-- Modelled from the spec: a Histogram/Timer retains its `(value, rate)`
samples (exact retention is allowed) and computes count, min, max and the
configured percentiles at flush.  `counterEnabled` mirrors the optional
normalized-count record. -/
structure Histo where
  name : String
  tags : List String
  percentiles : List Rat
  counterEnabled : Bool
  samples : List (Rat × Rat)
deriving DecidableEq

def NewHist (name : String) (tags : List String) (percentiles : List Rat)
    (counterEnabled : Bool) : Histo :=
  ⟨name, tags, percentiles, counterEnabled, []⟩

def Histo.sample (h : Histo) (v : Rat) (rate : Rat) : Histo :=
  { h with samples := h.samples ++ [(v, rate)] }

/-- Nearest-rank order statistic of a sample list, clamped to the
available data points. -/
def percentileOf (samples : List Rat) (p : Rat) : Rat :=
  let sorted := sortRats samples
  sorted.getD (min (p * sorted.length).floor.toNat (sorted.length - 1)) 0

/-- Modelled from the spec: histogram flush emits count (rate-adjusted),
max, min and one record per configured percentile; optionally a
normalized-count record when so configured. -/
def Histo.flush (h : Histo) (_interval : Rat) : List DDMetric :=
  match h.samples with
  | [] => []
  | _ =>
    let values := h.samples.map (·.1)
    let rateCount : Rat := (h.samples.map (fun p => 1 / p.2)).sum
    (if h.counterEnabled then [⟨h.name ++ ".count", h.tags, "rate", rateCount, ""⟩] else [])
      ++ [⟨h.name ++ ".count", h.tags, "counter", rateCount, ""⟩,
          ⟨h.name ++ ".max", h.tags, "gauge", (sortRats values).getLastD 0, ""⟩,
          ⟨h.name ++ ".min", h.tags, "gauge", (sortRats values).headD 0, ""⟩]
      ++ h.percentiles.map (fun p =>
          ⟨h.name ++ ".percentile", h.tags, "gauge", percentileOf values p, ""⟩)

/-- Modelled from the spec: a Set estimates the cardinality of the distinct
string elements; modelled exactly (distinct-element count), which is within
the allowed approximation. `size`/`accuracy` mirror the probabilistic
structure's configuration parameters. -/
structure VSet where
  name : String
  tags : List String
  size : Nat
  accuracy : Rat
  samples : List String
deriving DecidableEq

def NewSet (name : String) (tags : List String) (size : Nat) (accuracy : Rat) : VSet :=
  ⟨name, tags, size, accuracy, []⟩

def VSet.sample (s : VSet) (v : String) (_rate : Rat) : VSet :=
  { s with samples := s.samples ++ [v] }

/-- Modelled from the spec: set flush emits one record with the estimated
distinct-element count. -/
def VSet.flush (s : VSet) : List DDMetric :=
  [⟨s.name, s.tags, "gauge", (s.samples.dedup.length : Rat), ""⟩]

/-! ## The worker (shard) — `worker.go` -/

/-- Log events emitted by `Worker.ProcessMetric`. -/
inductive LogEvent where
  | debugNew (name : String)
  | errorUnknownType (t : String)
deriving DecidableEq

/-- The worker state (`Worker` in `worker.go`): the five kind-partitioned
digest maps, the processed-observation counter `metrics`, and the shard-wide
aggregator configuration.  Channels, the statsd client and the logger are
not state; their effects are reified in the return values. -/
structure Worker where
  id : Nat
  metrics : Int
  counters : List (Nat × Counter)
  gauges : List (Nat × Gauge)
  histograms : List (Nat × Histo)
  sets : List (Nat × VSet)
  timers : List (Nat × Histo)
  histogramPercentiles : List Rat
  histogramCounter : Bool
  bloomSetSize : Nat
  bloomSetAccuracy : Rat
deriving DecidableEq

/-- Constructor `NewWorker`: fresh worker with empty maps and a zero
counter. -/
def NewWorker (id : Nat) (percentiles : List Rat) (histogramCounter : Bool)
    (setSize : Nat) (setAccuracy : Rat) : Worker :=
  ⟨id, 0, [], [], [], [], [], percentiles, histogramCounter, setSize, setAccuracy⟩

/-- Method `Worker.ProcessMetric`: increments the observation counter, then
dispatches on the kind tag; for a known kind it looks up (lazily creating)
the digest's aggregator and samples it; the dynamic type assertions
`m.Value.(float64)` / `m.Value.(string)` panic (`none`) on a mismatched
value; an unknown kind logs an error and falls through.  The Go `switch` is
rendered as the equivalent chain of equality tests. -/
def processMetric (w : Worker) (m : Metric) : Option (Worker × List LogEvent) :=
  let w1 := { w with metrics := w.metrics + 1 }
  if m.mtype = "counter" then
    match m.value with
    | .num v =>
      match mapGet w1.counters m.digest with
      | some c =>
          some ({ w1 with counters := mapSet w1.counters m.digest (c.sample v m.sampleRate) }, [])
      | none =>
          let c := (NewCounter m.name m.tags).sample v m.sampleRate
          some ({ w1 with counters := mapSet w1.counters m.digest c }, [.debugNew m.name])
    | .str _ => none
  else if m.mtype = "gauge" then
    match m.value with
    | .num v =>
      match mapGet w1.gauges m.digest with
      | some g =>
          some ({ w1 with gauges := mapSet w1.gauges m.digest (g.sample v m.sampleRate) }, [])
      | none =>
          let g := (NewGauge m.name m.tags).sample v m.sampleRate
          some ({ w1 with gauges := mapSet w1.gauges m.digest g }, [.debugNew m.name])
    | .str _ => none
  else if m.mtype = "histogram" then
    match m.value with
    | .num v =>
      match mapGet w1.histograms m.digest with
      | some h =>
          some ({ w1 with histograms := mapSet w1.histograms m.digest (h.sample v m.sampleRate) }, [])
      | none =>
          let h := (NewHist m.name m.tags w1.histogramPercentiles w1.histogramCounter).sample v m.sampleRate
          some ({ w1 with histograms := mapSet w1.histograms m.digest h }, [.debugNew m.name])
    | .str _ => none
  else if m.mtype = "set" then
    match m.value with
    | .str v =>
      match mapGet w1.sets m.digest with
      | some s =>
          some ({ w1 with sets := mapSet w1.sets m.digest (s.sample v m.sampleRate) }, [])
      | none =>
          let s := (NewSet m.name m.tags w1.bloomSetSize w1.bloomSetAccuracy).sample v m.sampleRate
          some ({ w1 with sets := mapSet w1.sets m.digest s }, [.debugNew m.name])
    | .num _ => none
  else if m.mtype = "timer" then
    match m.value with
    | .num v =>
      match mapGet w1.timers m.digest with
      | some h =>
          some ({ w1 with timers := mapSet w1.timers m.digest (h.sample v m.sampleRate) }, [])
      | none =>
          let h := (NewHist m.name m.tags w1.histogramPercentiles w1.histogramCounter).sample v m.sampleRate
          some ({ w1 with timers := mapSet w1.timers m.digest h }, [.debugNew m.name])
    | .str _ => none
  else
    some (w1, [.errorUnknownType m.mtype])

/-- Sequential ingestion of a list of observations (the shard's single
consumer loop `Worker.Work` feeding `ProcessMetric`); `none` if any
observation panics. -/
def processAll (w : Worker) : List Metric → Option Worker
  | [] => some w
  | m :: ms =>
    match processMetric w m with
    | none => none
    | some (w', _) => processAll w' ms

/-- An observation whose dynamic value matches its kind: float-valued for
counter, gauge, histogram and timer, string-valued for set.  This is the
unchecked precondition of `ProcessMetric`'s type assertions. -/
def wellFormed (m : Metric) : Bool :=
  if m.mtype = "counter" ∨ m.mtype = "gauge" ∨ m.mtype = "histogram" ∨ m.mtype = "timer" then
    match m.value with
    | .num _ => true
    | .str _ => false
  else if m.mtype = "set" then
    match m.value with
    | .str _ => true
    | .num _ => false
  else false

/-- Sum of a per-aggregator statistic over a digest map. -/
def mapSampleSum (g : β → Nat) : List (Nat × β) → Nat
  | [] => 0
  | (_, v) :: rest => g v + mapSampleSum g rest

/-- Total number of raw samples held in a worker's five digest maps; every
successfully ingested observation of known kind contributes exactly one. -/
def sampleCount (w : Worker) : Nat :=
  mapSampleSum (fun c => c.samples.length) w.counters
    + mapSampleSum (fun g => g.samples.length) w.gauges
    + mapSampleSum (fun h => h.samples.length) w.histograms
    + mapSampleSum (fun s => s.samples.length) w.sets
    + mapSampleSum (fun h => h.samples.length) w.timers

/-! ### `Worker.Flush` -/

/-- The records produced from a worker's current aggregator maps: each map
is walked and every aggregator's flush output is concatenated, in the
source's order (counters, gauges, histograms, sets, timers). -/
def accumulatedRecords (w : Worker) (interval : Rat) : List DDMetric :=
  (w.counters.map (fun p => p.2.flush interval)).flatten
    ++ (w.gauges.map (fun p => p.2.flush)).flatten
    ++ (w.histograms.map (fun p => p.2.flush interval)).flatten
    ++ (w.sets.map (fun p => p.2.flush)).flatten
    ++ (w.timers.map (fun p => p.2.flush interval)).flatten

/-- The steps of `Worker.Flush`, in source order; `statsEmit` is a statsd
client call (self-observability network emission), `aggFlush k` stands for
the whole per-aggregator flush loop over the map of kind `k`. -/
inductive WFEvent where
  | takeMaps
  | installFreshMaps
  | resetCounter
  | statsEmit (name : String)
  | aggFlush (kind : String)
deriving DecidableEq

/-- An event of `Worker.Flush` together with whether `w.mutex` is held when
it runs. -/
structure TimedEvent where
  ev : WFEvent
  lockHeld : Bool
deriving DecidableEq

/-- The event trace of `Worker.Flush`, in the order the source performs
them: the lock is acquired, the five maps are taken, the processed-total
count is emitted, fresh maps are installed, the counter is reset, the lock
is released, and only then the duration emission, the per-kind flushed
counts and the per-aggregator flush loops run. -/
def workerFlushEvents : List TimedEvent :=
  [⟨.takeMaps, true⟩,
   ⟨.statsEmit "worker.metrics_processed_total", true⟩,
   ⟨.installFreshMaps, true⟩,
   ⟨.resetCounter, true⟩,
   ⟨.statsEmit "flush.worker_duration_ns", false⟩,
   ⟨.statsEmit "worker.metrics_flushed_total", false⟩, ⟨.aggFlush "counter", false⟩,
   ⟨.statsEmit "worker.metrics_flushed_total", false⟩, ⟨.aggFlush "gauge", false⟩,
   ⟨.statsEmit "worker.metrics_flushed_total", false⟩, ⟨.aggFlush "histogram", false⟩,
   ⟨.statsEmit "worker.metrics_flushed_total", false⟩, ⟨.aggFlush "set", false⟩,
   ⟨.statsEmit "worker.metrics_flushed_total", false⟩, ⟨.aggFlush "timer", false⟩]

/-- Whether a `Worker.Flush` step is a statsd self-observability emission
(I/O on the statsd side-channel). -/
def isEmission : WFEvent → Bool
  | .statsEmit _ => true
  | _ => false

/-- Whether a `Worker.Flush` step is per-aggregator flush work. -/
def isAggFlush : WFEvent → Bool
  | .aggFlush _ => true
  | _ => false

/-- Method `Worker.Flush`: under the lock the five maps are taken and replaced by
fresh empty ones and the observation counter is reset; outside the lock
every taken aggregator is flushed and the outputs concatenated.  Returns
the records, the post-swap worker state, and the event trace. -/
def workerFlush (w : Worker) (interval : Rat) :
    List DDMetric × Worker × List TimedEvent :=
  (accumulatedRecords w interval,
   { w with counters := [], gauges := [], histograms := [], sets := [],
            timers := [], metrics := 0 },
   workerFlushEvents)

/-! ## The flush orchestrator — `Server.Flush` -/

/-- Source line `workers := ((totalCount - 1) / metricLimit) + 1`: the
rounding-up integer division choosing the number of chunks. -/
def serverWorkers (totalCount metricLimit : Nat) : Nat :=
  (totalCount - 1) / metricLimit + 1

/-- Source line `chunkSize := ((totalCount - 1) / workers) + 1`: the
rounding-up integer division choosing the chunk size. -/
def serverChunkSize (totalCount workers : Nat) : Nat :=
  (totalCount - 1) / workers + 1

/-- One chunk of the loop body: `chunk := finalMetrics[i*chunkSize:]`,
trimmed to `chunk[:chunkSize]` unless it is the last one. -/
def flushChunk (finalMetrics : List DDMetric) (chunkSize workers i : Nat) :
    List DDMetric :=
  if i < workers - 1 then (finalMetrics.drop (i * chunkSize)).take chunkSize
  else finalMetrics.drop (i * chunkSize)

/-- The chunks `Server.Flush` hands to `flushPart`: the loop
`for i := 0; i < workers; i++` over `flushChunk`. -/
def serverChunks (finalMetrics : List DDMetric) (metricLimit : Nat) :
    List (List DDMetric) :=
  (List.range (serverWorkers finalMetrics.length metricLimit)).map
    (flushChunk finalMetrics
      (serverChunkSize finalMetrics.length (serverWorkers finalMetrics.length metricLimit))
      (serverWorkers finalMetrics.length metricLimit))

/-- The merge step of `Server.Flush`: `postMetrics` is created with
`make([][]DDMetric, len(s.Workers))` (length, not capacity — so it starts
with that many empty slices) and each worker's output is appended;
`finalMetrics` is the concatenation, then every record gets the server's
hostname. -/
def serverFinalMetrics (hostname : String) (numWorkers : Nat)
    (workerOutputs : List (List DDMetric)) : List DDMetric :=
  let postMetrics := List.replicate numWorkers ([] : List DDMetric) ++ workerOutputs
  (postMetrics.flatten).map (fun m => { m with hostname := hostname })

/-- Observable actions of `Server.Flush`, in program order. -/
inductive ServerEvent where
  | statsGauge (name : String)
  | logDebug (msg : String)
  | logInfo (msg : String)
  | submitChunk (size : Nat)
  | statsTimeMs (name : String)
  | statsCount (name : String) (value : Int)
deriving DecidableEq

/-- The action trace of `Server.Flush`: the post-metrics gauge is emitted;
if there is nothing to flush an informational log is written and the cycle
stops; otherwise the chunk parameters are logged, every chunk is submitted
(`go s.flushPart(chunk, &wg)`), and the cycle ends with the duration
emission, the zero error count and the completion log. -/
def serverFlushEvents (finalMetrics : List DDMetric) (metricLimit : Nat) :
    List ServerEvent :=
  let totalCount := finalMetrics.length
  [ServerEvent.statsGauge "flush.post_metrics_total"]
    ++ (if totalCount = 0 then
          [ServerEvent.logInfo "Nothing to flush, skipping."]
        else
          [ServerEvent.logDebug "Worker count chosen",
           ServerEvent.logDebug "Chunk size chosen"]
            ++ (serverChunks finalMetrics metricLimit).map
                (fun c => ServerEvent.submitChunk c.length)
            ++ [ServerEvent.statsTimeMs "flush.total_duration_ns",
                ServerEvent.statsCount "flush.error_total" 0,
                ServerEvent.logInfo "Completed flush to Datadog"])

/-! ### Arithmetic facts about the chunk parameters -/

/-- Any `a` is below the next multiple of `b` above `a/b*b`. -/
lemma lt_div_succ_mul (a b : Nat) (hb : 0 < b) : a < (a / b + 1) * b := by
  calc a = b * (a / b) + a % b := (Nat.div_add_mod a b).symm
    _ < b * (a / b) + b := Nat.add_lt_add_left (Nat.mod_lt a hb) _
    _ = (a / b + 1) * b := by ring

/-- Rounding-up division: `(n-1)/d + 1` is `⌈n/d⌉` for positive `n`, `d`. -/
lemma ceil_div_eq (n d : Nat) (hn : 1 ≤ n) (hd : 1 ≤ d) :
    (n - 1) / d + 1 = (n + d - 1) / d := by
  have h : n + d - 1 = (n - 1) + d := by omega
  rw [h, Nat.add_div_right _ hd]

/-- The three arithmetic facts the chunking loop relies on: the chunk size
never exceeds the metric limit, `workers` chunks of `chunkSize` cover all
the records, and the final chunk's start index is strictly inside the
record sequence. -/
lemma chunk_facts (n L : Nat) (hn : 1 ≤ n) (hL : 1 ≤ L) :
    serverChunkSize n (serverWorkers n L) ≤ L ∧
    n ≤ serverWorkers n L * serverChunkSize n (serverWorkers n L) ∧
    (serverWorkers n L - 1) * serverChunkSize n (serverWorkers n L) < n := by
  have hWpos : 0 < serverWorkers n L := Nat.succ_pos _
  have hWval : serverWorkers n L = (n - 1) / L + 1 := rfl
  have hcval : serverChunkSize n (serverWorkers n L) = (n - 1) / serverWorkers n L + 1 := rfl
  have hcL : serverChunkSize n (serverWorkers n L) ≤ L := by
    have h1 : n - 1 < ((n - 1) / L + 1) * L := lt_div_succ_mul (n - 1) L hL
    have h2 : (n - 1) / serverWorkers n L < L := by
      rw [Nat.div_lt_iff_lt_mul hWpos, hWval, Nat.mul_comm]
      exact h1
    omega
  have hcover : n ≤ serverWorkers n L * serverChunkSize n (serverWorkers n L) := by
    have h3 : n - 1 < ((n - 1) / serverWorkers n L + 1) * serverWorkers n L :=
      lt_div_succ_mul (n - 1) (serverWorkers n L) hWpos
    rw [← hcval, Nat.mul_comm] at h3
    omega
  have hlast : (serverWorkers n L - 1) * serverChunkSize n (serverWorkers n L) < n := by
    have h5 : (serverWorkers n L - 1) * serverChunkSize n (serverWorkers n L)
        ≤ (serverWorkers n L - 1) * L := Nat.mul_le_mul_left _ hcL
    have h7 : serverWorkers n L - 1 = (n - 1) / L := by omega
    have h6 : (serverWorkers n L - 1) * L ≤ n - 1 := by
      rw [h7]
      exact Nat.div_mul_le_self _ _
    omega
  exact ⟨hcL, hcover, hlast⟩

/-- Concatenating the chunks of the flush loop reassembles the record
sequence exactly, whatever the chunk size. -/
lemma flushChunk_flatten (c : Nat) :
    ∀ (k : Nat) (l : List DDMetric), 1 ≤ k →
      ((List.range k).map (flushChunk l c k)).flatten = l := by
  intro k
  induction k with
  | zero => intro l h; omega
  | succ j ih =>
    intro l _
    by_cases hj : j = 0
    · subst hj
      show (List.map (flushChunk l c 1) [0]).flatten = l
      simp [flushChunk]
    · have hj1 : 1 ≤ j := Nat.one_le_iff_ne_zero.mpr hj
      rw [List.range_succ_eq_map, List.map_cons, List.map_map]
      have h0 : flushChunk l c (j + 1) 0 = l.take c := by
        unfold flushChunk
        rw [if_pos (by omega : (0 : Nat) < j + 1 - 1)]
        simp
      have hsucc : (flushChunk l c (j + 1)) ∘ Nat.succ = flushChunk (l.drop c) c j := by
        funext i
        show flushChunk l c (j + 1) (i + 1) = flushChunk (l.drop c) c j i
        unfold flushChunk
        have e2 : l.drop ((i + 1) * c) = (l.drop c).drop (i * c) := by
          rw [List.drop_drop]
          congr 1
          ring
        by_cases hi : i + 1 < j + 1 - 1
        · rw [if_pos hi, if_pos (by omega : i < j - 1), e2]
        · rw [if_neg hi, if_neg (by omega : ¬ i < j - 1), e2]
      rw [h0, hsucc, List.flatten_cons, ih (l.drop c) hj1, List.take_append_drop]

/-- Every chunk produced by `serverChunks` is at most `chunkSize` long. -/
lemma serverChunks_length_le (l : List DDMetric) (L : Nat) (hn : 1 ≤ l.length)
    (hL : 1 ≤ L) :
    ∀ ch ∈ serverChunks l L,
      ch.length ≤ serverChunkSize l.length (serverWorkers l.length L) := by
  intro ch hch
  have hWpos : 0 < serverWorkers l.length L := Nat.succ_pos _
  obtain ⟨i, hi, rfl⟩ := List.mem_map.mp hch
  have hiW : i < serverWorkers l.length L := List.mem_range.mp hi
  unfold flushChunk
  by_cases hcase : i < serverWorkers l.length L - 1
  · rw [if_pos hcase]
    rw [List.length_take]
    exact min_le_left _ _
  · rw [if_neg hcase]
    rw [List.length_drop]
    have hieq : i = serverWorkers l.length L - 1 := by omega
    have hcover : l.length
        ≤ serverWorkers l.length L * serverChunkSize l.length (serverWorkers l.length L) :=
      (chunk_facts l.length L hn hL).2.1
    have hWc : (serverWorkers l.length L - 1) * serverChunkSize l.length (serverWorkers l.length L)
        + serverChunkSize l.length (serverWorkers l.length L)
        = serverWorkers l.length L * serverChunkSize l.length (serverWorkers l.length L) := by
      have h1 : serverWorkers l.length L - 1 + 1 = serverWorkers l.length L :=
        Nat.succ_pred_eq_of_pos hWpos
      calc (serverWorkers l.length L - 1) * serverChunkSize l.length (serverWorkers l.length L)
            + serverChunkSize l.length (serverWorkers l.length L)
          = (serverWorkers l.length L - 1 + 1)
            * serverChunkSize l.length (serverWorkers l.length L) := by ring
        _ = serverWorkers l.length L * serverChunkSize l.length (serverWorkers l.length L) := by
            rw [h1]
    rw [hieq]
    omega

/-! ### Concrete record sequences used as witnesses -/

/-- A concrete flush record. -/
def sampleMetric (i : Nat) : DDMetric :=
  ⟨"metric." ++ toString i, ["tag:a"], "counter", 1, ""⟩

/-- A list of `k` pairwise distinct concrete flush records. -/
def sampleRecords (k : Nat) : List DDMetric :=
  (List.range k).map sampleMetric

/-! ## The backend submitter — `Server.flushPart` -/

/-- The environment a single `flushPart` call runs against: whether JSON
encoding fails, whether request construction fails, whether the HTTP
round-trip fails, the response status code otherwise, and whether reading
the response body fails. -/
structure FlushPartEnv where
  encodeErr : Bool
  buildErr : Bool
  transportErr : Bool
  statusCode : Nat
  bodyReadErr : Bool
deriving DecidableEq

/-- The distinct failure-cause tags `flushPart` attaches to
`flush.error_total`. -/
inductive FailCause where
  | json
  | construct
  | io
  | status (code : Nat)
deriving DecidableEq

/-- Outcome of one `flushPart` call: either a failure counted with the
chunk's full record count and a cause tag, or success. -/
inductive PartResult where
  | failed (cause : FailCause) (count : Nat)
  | succeeded
deriving DecidableEq

/-- Log lines `flushPart` can emit. -/
inductive PartLog where
  | errorJSON
  | errorConstruct
  | errorPost
  | errorReadBody
  | errorStatus
  | debugPosted
deriving DecidableEq

/-- Method `Server.flushPart`: serialize+compress, build the POST, send it, read
the body best-effort, and classify.  Each early-exit failure counts the
whole slice length under its own cause tag; a body-read failure only logs;
the call succeeds exactly when the status is 202 Accepted. -/
def flushPart (metricSlice : List DDMetric) (env : FlushPartEnv) :
    PartResult × List PartLog :=
  if env.encodeErr then
    (.failed .json metricSlice.length, [.errorJSON])
  else if env.buildErr then
    (.failed .construct metricSlice.length, [.errorConstruct])
  else if env.transportErr then
    (.failed .io metricSlice.length, [.errorPost])
  else
    let bodyLogs : List PartLog := if env.bodyReadErr then [.errorReadBody] else []
    if env.statusCode ≠ 202 then
      (.failed (.status env.statusCode) metricSlice.length, bodyLogs ++ [.errorStatus])
    else
      (.succeeded, bodyLogs ++ [.debugPosted])

/-! ### Sample accounting across ingestion and the flush swap -/

/-- Writing a fresh key appends it: the statistic sum grows by the new
entry's contribution. -/
lemma mapSampleSum_set_none (g : β → Nat) (mp : List (Nat × β)) (d : Nat) (b : β)
    (h : mapGet mp d = none) :
    mapSampleSum g (mapSet mp d b) = mapSampleSum g mp + g b := by
  induction mp with
  | nil => simp [mapSet, mapSampleSum]
  | cons p rest ih =>
    obtain ⟨k, v⟩ := p
    by_cases hk : k = d
    · simp [mapGet, hk] at h
    · simp only [mapGet, if_neg hk] at h
      simp only [mapSet, if_neg hk, mapSampleSum, ih h]
      omega

/-- Overwriting a present key: the statistic sum changes by the difference
between the new and the old entry's contribution. -/
lemma mapSampleSum_set_some (g : β → Nat) (mp : List (Nat × β)) (d : Nat) (b c : β)
    (h : mapGet mp d = some c) :
    mapSampleSum g (mapSet mp d b) + g c = mapSampleSum g mp + g b := by
  induction mp with
  | nil => simp [mapGet] at h
  | cons p rest ih =>
    obtain ⟨k, v⟩ := p
    by_cases hk : k = d
    · simp only [mapGet, if_pos hk, Option.some.injEq] at h
      subst h
      simp only [mapSet, if_pos hk, mapSampleSum]
      omega
    · simp only [mapGet, if_neg hk] at h
      have := ih h
      simp only [mapSet, if_neg hk, mapSampleSum]
      omega

/-- One well-formed observation is ingested without panicking, adds exactly
one sample to the shard state, and increments the observation counter. -/
lemma processMetric_wellFormed_step (w : Worker) (m : Metric)
    (h : wellFormed m = true) :
    ∃ w' logs, processMetric w m = some (w', logs) ∧
      sampleCount w' = sampleCount w + 1 ∧ w'.metrics = w.metrics + 1 := by
  by_cases h1 : m.mtype = "counter"
  · cases hv : m.value with
    | str s => simp [wellFormed, h1, hv] at h
    | num v =>
      cases hg : mapGet w.counters m.digest with
      | some c =>
        have hpm : processMetric w m = some ({ w with metrics := w.metrics + 1, counters := mapSet w.counters m.digest (c.sample v m.sampleRate) }, []) := by
          simp [processMetric, h1, hv, hg]
        refine ⟨_, _, hpm, ?_, rfl⟩
        have hs := mapSampleSum_set_some (fun x : Counter => x.samples.length)
            w.counters m.digest (c.sample v m.sampleRate) c hg
        have hlen : (c.sample v m.sampleRate).samples.length = c.samples.length + 1 := by
          simp [Counter.sample]
        simp only [hlen] at hs
        simp [sampleCount]
        omega
      | none =>
        have hpm : processMetric w m = some ({ w with metrics := w.metrics + 1, counters := mapSet w.counters m.digest ((NewCounter m.name m.tags).sample v m.sampleRate) }, [.debugNew m.name]) := by
          simp [processMetric, h1, hv, hg]
        refine ⟨_, _, hpm, ?_, rfl⟩
        have hs := mapSampleSum_set_none (fun x : Counter => x.samples.length)
            w.counters m.digest ((NewCounter m.name m.tags).sample v m.sampleRate) hg
        have hlen : ((NewCounter m.name m.tags).sample v m.sampleRate).samples.length = 1 := by
          simp [Counter.sample, NewCounter]
        simp only [hlen] at hs
        simp [sampleCount]
        omega
  · by_cases h2 : m.mtype = "gauge"
    · cases hv : m.value with
      | str s => simp [wellFormed, h2, hv] at h
      | num v =>
        cases hg : mapGet w.gauges m.digest with
        | some c =>
          have hpm : processMetric w m = some ({ w with metrics := w.metrics + 1, gauges := mapSet w.gauges m.digest (c.sample v m.sampleRate) }, []) := by
            simp [processMetric, h1, h2, hv, hg]
          refine ⟨_, _, hpm, ?_, rfl⟩
          have hs := mapSampleSum_set_some (fun x : Gauge => x.samples.length)
              w.gauges m.digest (c.sample v m.sampleRate) c hg
          have hlen : (c.sample v m.sampleRate).samples.length = c.samples.length + 1 := by
            simp [Gauge.sample]
          simp only [hlen] at hs
          simp [sampleCount]
          omega
        | none =>
          have hpm : processMetric w m = some ({ w with metrics := w.metrics + 1, gauges := mapSet w.gauges m.digest ((NewGauge m.name m.tags).sample v m.sampleRate) }, [.debugNew m.name]) := by
            simp [processMetric, h1, h2, hv, hg]
          refine ⟨_, _, hpm, ?_, rfl⟩
          have hs := mapSampleSum_set_none (fun x : Gauge => x.samples.length)
              w.gauges m.digest ((NewGauge m.name m.tags).sample v m.sampleRate) hg
          have hlen : ((NewGauge m.name m.tags).sample v m.sampleRate).samples.length = 1 := by
            simp [Gauge.sample, NewGauge]
          simp only [hlen] at hs
          simp [sampleCount]
          omega
    · by_cases h3 : m.mtype = "histogram"
      · cases hv : m.value with
        | str s => simp [wellFormed, h3, hv] at h
        | num v =>
          cases hg : mapGet w.histograms m.digest with
          | some c =>
            have hpm : processMetric w m = some ({ w with metrics := w.metrics + 1, histograms := mapSet w.histograms m.digest (c.sample v m.sampleRate) }, []) := by
              simp [processMetric, h1, h2, h3, hv, hg]
            refine ⟨_, _, hpm, ?_, rfl⟩
            have hs := mapSampleSum_set_some (fun x : Histo => x.samples.length)
                w.histograms m.digest (c.sample v m.sampleRate) c hg
            have hlen : (c.sample v m.sampleRate).samples.length = c.samples.length + 1 := by
              simp [Histo.sample]
            simp only [hlen] at hs
            simp [sampleCount]
            omega
          | none =>
            have hpm : processMetric w m = some ({ w with metrics := w.metrics + 1, histograms := mapSet w.histograms m.digest ((NewHist m.name m.tags w.histogramPercentiles w.histogramCounter).sample v m.sampleRate) }, [.debugNew m.name]) := by
              simp [processMetric, h1, h2, h3, hv, hg]
            refine ⟨_, _, hpm, ?_, rfl⟩
            have hs := mapSampleSum_set_none (fun x : Histo => x.samples.length)
                w.histograms m.digest
                ((NewHist m.name m.tags w.histogramPercentiles w.histogramCounter).sample v m.sampleRate) hg
            have hlen : ((NewHist m.name m.tags w.histogramPercentiles w.histogramCounter).sample v m.sampleRate).samples.length = 1 := by
              simp [Histo.sample, NewHist]
            simp only [hlen] at hs
            simp [sampleCount]
            omega
      · by_cases h4 : m.mtype = "set"
        · cases hv : m.value with
          | num v => simp [wellFormed, h1, h2, h3, h4, hv] at h
          | str s =>
            cases hg : mapGet w.sets m.digest with
            | some c =>
              have hpm : processMetric w m = some ({ w with metrics := w.metrics + 1, sets := mapSet w.sets m.digest (c.sample s m.sampleRate) }, []) := by
                simp [processMetric, h1, h2, h3, h4, hv, hg]
              refine ⟨_, _, hpm, ?_, rfl⟩
              have hs := mapSampleSum_set_some (fun x : VSet => x.samples.length)
                  w.sets m.digest (c.sample s m.sampleRate) c hg
              have hlen : (c.sample s m.sampleRate).samples.length = c.samples.length + 1 := by
                simp [VSet.sample]
              simp only [hlen] at hs
              simp [sampleCount]
              omega
            | none =>
              have hpm : processMetric w m = some ({ w with metrics := w.metrics + 1, sets := mapSet w.sets m.digest ((NewSet m.name m.tags w.bloomSetSize w.bloomSetAccuracy).sample s m.sampleRate) }, [.debugNew m.name]) := by
                simp [processMetric, h1, h2, h3, h4, hv, hg]
              refine ⟨_, _, hpm, ?_, rfl⟩
              have hs := mapSampleSum_set_none (fun x : VSet => x.samples.length)
                  w.sets m.digest
                  ((NewSet m.name m.tags w.bloomSetSize w.bloomSetAccuracy).sample s m.sampleRate) hg
              have hlen : ((NewSet m.name m.tags w.bloomSetSize w.bloomSetAccuracy).sample s m.sampleRate).samples.length = 1 := by
                simp [VSet.sample, NewSet]
              simp only [hlen] at hs
              simp [sampleCount]
              omega
        · by_cases h5 : m.mtype = "timer"
          · cases hv : m.value with
            | str s => simp [wellFormed, h1, h2, h3, h5, hv] at h
            | num v =>
              cases hg : mapGet w.timers m.digest with
              | some c =>
                have hpm : processMetric w m = some ({ w with metrics := w.metrics + 1, timers := mapSet w.timers m.digest (c.sample v m.sampleRate) }, []) := by
                  simp [processMetric, h1, h2, h3, h4, h5, hv, hg]
                refine ⟨_, _, hpm, ?_, rfl⟩
                have hs := mapSampleSum_set_some (fun x : Histo => x.samples.length)
                    w.timers m.digest (c.sample v m.sampleRate) c hg
                have hlen : (c.sample v m.sampleRate).samples.length = c.samples.length + 1 := by
                  simp [Histo.sample]
                simp only [hlen] at hs
                simp [sampleCount]
                omega
              | none =>
                have hpm : processMetric w m = some ({ w with metrics := w.metrics + 1, timers := mapSet w.timers m.digest ((NewHist m.name m.tags w.histogramPercentiles w.histogramCounter).sample v m.sampleRate) }, [.debugNew m.name]) := by
                  simp [processMetric, h1, h2, h3, h4, h5, hv, hg]
                refine ⟨_, _, hpm, ?_, rfl⟩
                have hs := mapSampleSum_set_none (fun x : Histo => x.samples.length)
                    w.timers m.digest
                    ((NewHist m.name m.tags w.histogramPercentiles w.histogramCounter).sample v m.sampleRate) hg
                have hlen : ((NewHist m.name m.tags w.histogramPercentiles w.histogramCounter).sample v m.sampleRate).samples.length = 1 := by
                  simp [Histo.sample, NewHist]
                simp only [hlen] at hs
                simp [sampleCount]
                omega
          · simp [wellFormed, h1, h2, h3, h4, h5] at h

/-- Ingesting a list of well-formed observations never panics, adds one
sample per observation, and advances the observation counter by the list
length. -/
lemma processAll_wellFormed (ms : List Metric) :
    ∀ (w : Worker), (∀ m ∈ ms, wellFormed m = true) →
      ∃ w', processAll w ms = some w' ∧
        sampleCount w' = sampleCount w + ms.length ∧
        w'.metrics = w.metrics + ms.length := by
  induction ms with
  | nil =>
    intro w _
    exact ⟨w, rfl, by simp, by simp⟩
  | cons m rest ih =>
    intro w hall
    obtain ⟨w1, logs, hp, hs, hm⟩ := processMetric_wellFormed_step w m (hall m (by simp))
    obtain ⟨w', hpa, hs', hm'⟩ := ih w1 (fun x hx => hall x (by simp [hx]))
    have hlen : (m :: rest).length = rest.length + 1 := rfl
    refine ⟨w', ?_, by omega, by omega⟩
    simp [processAll, hp, hpa]

/-! ### Concrete worker states and observations used as witnesses -/

/-- A fresh concrete worker. -/
def w0 : Worker := NewWorker 0 [] false 0 0

/-- A concrete observation of unknown kind. -/
def mUnknown : Metric := ⟨"m", "foobar", [], 7, .num 1, 1⟩

/-- A concrete counter observation carrying a string value: its dynamic
type does not match its kind. -/
def mBadCounter : Metric := ⟨"m", "counter", [], 3, .str "oops", 1⟩

/-- A concrete well-formed counter observation. -/
def mCounter : Metric := ⟨"c", "counter", [], 1, .num 2, 1⟩

/-- A concrete well-formed gauge observation. -/
def mGauge : Metric := ⟨"g", "gauge", [], 2, .num 3, 1⟩

/-! ## Claim theorems -/

/-- C1: For every flush cycle with `totalCount ≥ 1` records and configured
`metricLimit` L ≥ 1, `Server.Flush` partitions the combined record sequence
into exactly `W = ⌈totalCount/L⌉` chunks, every chunk has size at most
`⌈totalCount/W⌉` (hence at most L), and the concatenation of all chunks is
exactly the original record sequence, each record exactly once. -/
theorem server_flush_chunking (l : List DDMetric) (L : Nat)
    (hn : 1 ≤ l.length) (hL : 1 ≤ L) :
    (serverChunks l L).length = (l.length + L - 1) / L ∧
    (∀ ch ∈ serverChunks l L,
        ch.length ≤ (l.length + (serverChunks l L).length - 1) / (serverChunks l L).length ∧
        ch.length ≤ L) ∧
    (serverChunks l L).flatten = l := by
  have hlen : (serverChunks l L).length = serverWorkers l.length L := by
    unfold serverChunks
    rw [List.length_map, List.length_range]
  have hWL : serverWorkers l.length L = (l.length + L - 1) / L := by
    unfold serverWorkers
    exact ceil_div_eq l.length L hn hL
  have hWpos : 0 < serverWorkers l.length L := Nat.succ_pos _
  have hcW : serverChunkSize l.length (serverWorkers l.length L)
      = (l.length + serverWorkers l.length L - 1) / serverWorkers l.length L := by
    unfold serverChunkSize
    exact ceil_div_eq l.length (serverWorkers l.length L) hn hWpos
  refine ⟨by rw [hlen, hWL], fun ch hch => ⟨?_, ?_⟩, ?_⟩
  · rw [hlen, ← hcW]
    exact serverChunks_length_le l L hn hL ch hch
  · exact le_trans (serverChunks_length_le l L hn hL ch hch) (chunk_facts l.length L hn hL).1
  · unfold serverChunks
    exact flushChunk_flatten _ _ _ (Nat.succ_pos _)

/-- Witness for C1: five concrete records with limit 2 give three chunks
whose concatenation is the original sequence. -/
theorem server_flush_chunking_witness :
    (serverChunks (sampleRecords 5) 2).length = 3 ∧
    (serverChunks (sampleRecords 5) 2).flatten = sampleRecords 5 :=
  have h := server_flush_chunking (sampleRecords 5) 2 (by decide) (by decide)
  ⟨h.1.trans (by decide), h.2.2⟩

/-- C9: the chunking arithmetic of `Server.Flush` is safe once
`totalCount ≥ 1` and `metricLimit ≥ 1`: both divisors are at least one,
every non-final chunk's slice bounds `i*chunkSize` and
`i*chunkSize+chunkSize` lie within the record sequence, and the final
chunk `finalMetrics[(workers-1)*chunkSize:]` is non-empty. -/
theorem chunking_arithmetic_safe (n L : Nat) (hn : 1 ≤ n) (hL : 1 ≤ L) :
    1 ≤ serverWorkers n L ∧
    1 ≤ serverChunkSize n (serverWorkers n L) ∧
    (∀ i, i < serverWorkers n L - 1 →
        i * serverChunkSize n (serverWorkers n L)
          + serverChunkSize n (serverWorkers n L) ≤ n) ∧
    (serverWorkers n L - 1) * serverChunkSize n (serverWorkers n L) < n := by
  obtain ⟨hcL, hcover, hlast⟩ := chunk_facts n L hn hL
  refine ⟨Nat.succ_pos _, Nat.succ_pos _, fun i hi => ?_, hlast⟩
  have h1 : i + 1 ≤ serverWorkers n L - 1 := hi
  have h2 : (i + 1) * serverChunkSize n (serverWorkers n L)
      ≤ (serverWorkers n L - 1) * serverChunkSize n (serverWorkers n L) :=
    Nat.mul_le_mul_right _ h1
  have h3 : (i + 1) * serverChunkSize n (serverWorkers n L)
      = i * serverChunkSize n (serverWorkers n L) + serverChunkSize n (serverWorkers n L) := by
    ring
  omega

/-- Witness for C9 at `totalCount = 5`, `metricLimit = 2`: the first
chunk's upper bound is in range and the final chunk is non-empty. -/
theorem chunking_arithmetic_safe_witness :
    0 * serverChunkSize 5 (serverWorkers 5 2) + serverChunkSize 5 (serverWorkers 5 2) ≤ 5 ∧
    (serverWorkers 5 2 - 1) * serverChunkSize 5 (serverWorkers 5 2) < 5 :=
  ⟨(chunking_arithmetic_safe 5 2 (by decide) (by decide)).2.2.1 0 (by decide),
   (chunking_arithmetic_safe 5 2 (by decide) (by decide)).2.2.2⟩

/-- C2 counterexample: on a flush cycle of exactly 250 records with
`metricLimit = 100` the code produces chunk sizes 84/84/82 — the two
non-final chunks have the full chunk size and the remainder falls entirely
on the final chunk — not the balanced 84/83/83 the claim states. -/
theorem flush_250_sizes_counterexample :
    (serverChunks (sampleRecords 250) 100).map List.length = [84, 84, 82] ∧
    (serverChunks (sampleRecords 250) 100).map List.length ≠ [84, 83, 83] := by
  constructor
  · decide
  · intro h
    rw [show (serverChunks (sampleRecords 250) 100).map List.length = [84, 84, 82]
          from by decide] at h
    exact absurd h (by decide)

/-- C2 amended: for a flush cycle with exactly 250 records and
`metricLimit = 100`, `Server.Flush` produces 3 chunks whose sizes are 84,
84 and 82 (each non-final chunk has the full chunk size
`⌈250/3⌉ = 84` and the final chunk absorbs the remainder), covering all
250 records exactly once. -/
theorem flush_250_sizes (l : List DDMetric) (h : l.length = 250) :
    (serverChunks l 100).map List.length = [84, 84, 82] ∧
    (serverChunks l 100).flatten = l := by
  have hW : serverWorkers l.length 100 = 3 := by rw [h]; decide
  have hc : serverChunkSize l.length (serverWorkers l.length 100) = 84 := by
    rw [hW, h]; decide
  constructor
  · unfold serverChunks
    rw [hc, hW]
    simp [List.range_succ, flushChunk, List.length_take, List.length_drop, h]
  · unfold serverChunks
    exact flushChunk_flatten _ _ _ (Nat.succ_pos _)

/-- Witness for C2's amended statement at a concrete 250-record sequence. -/
theorem flush_250_sizes_witness :
    (serverChunks (sampleRecords 250) 100).flatten = sampleRecords 250 :=
  (flush_250_sizes (sampleRecords 250) (by decide)).2

/-- C3 counterexample: processing an observation of unknown kind on a
fresh worker emits the diagnostic and drops the observation, but the
worker's state is NOT entirely unchanged — the processed-observation
counter is incremented from 0 to 1 (`w.metrics++` runs before the kind
switch). -/
theorem unknown_kind_counterexample :
    (processMetric w0 mUnknown).map (fun p => (p.1.metrics, p.2))
      = some ((1 : Int), [LogEvent.errorUnknownType "foobar"]) ∧
    w0.metrics = 0 := by
  exact ⟨by decide, rfl⟩

/-- C3 amended: for every observation of unknown kind, `ProcessMetric`
emits a diagnostic, drops the observation, and leaves all five aggregator
maps unchanged — but the processed-observation counter is incremented. -/
theorem unknown_kind_drops (w : Worker) (m : Metric)
    (h : m.mtype ∉ ["counter", "gauge", "histogram", "set", "timer"]) :
    processMetric w m
      = some ({ w with metrics := w.metrics + 1 }, [.errorUnknownType m.mtype]) := by
  simp only [List.mem_cons, List.not_mem_nil, or_false, not_or] at h
  obtain ⟨h1, h2, h3, h4, h5⟩ := h
  simp [processMetric, h1, h2, h3, h4, h5]

/-- Witness for C3's amended statement at a concrete worker and a concrete
unknown-kind observation. -/
theorem unknown_kind_drops_witness :
    processMetric w0 mUnknown
      = some ({ w0 with metrics := w0.metrics + 1 }, [.errorUnknownType "foobar"]) :=
  unknown_kind_drops w0 mUnknown (by decide)

/-- C4: flushing returns the accumulated records, leaves all five digest
maps fresh and empty and the observation counter zero, and a second flush
with no ingestion in between returns an empty record sequence — no digest
that had samples produces output again. -/
theorem worker_flush_reset (w : Worker) (interval : Rat) :
    (workerFlush w interval).1 = accumulatedRecords w interval ∧
    (workerFlush w interval).2.1.counters = [] ∧
    (workerFlush w interval).2.1.gauges = [] ∧
    (workerFlush w interval).2.1.histograms = [] ∧
    (workerFlush w interval).2.1.sets = [] ∧
    (workerFlush w interval).2.1.timers = [] ∧
    (workerFlush w interval).2.1.metrics = 0 ∧
    (workerFlush (workerFlush w interval).2.1 interval).1 = [] :=
  ⟨rfl, rfl, rfl, rfl, rfl, rfl, rfl, rfl⟩

/-- C5 counterexample: the claim that the lock is held only around the map
swap and counter reset — never around any self-observability emission — is
false: the `worker.metrics_processed_total` statsd emission occurs inside
the locked region of `Worker.Flush`. -/
theorem lock_scope_counterexample :
    (⟨.statsEmit "worker.metrics_processed_total", true⟩ : TimedEvent)
        ∈ workerFlushEvents ∧
    isEmission (.statsEmit "worker.metrics_processed_total") = true := by
  exact ⟨by decide, rfl⟩

/-- C5 amended: during `Worker.Flush` the lock is held exactly for taking
the five maps, the single `worker.metrics_processed_total` statsd emission,
installing fresh maps and resetting the observation counter; all
per-aggregator flush work and every other emission happen while the lock is
not held. -/
theorem lock_scope_amended :
    workerFlushEvents.filter (fun e => e.lockHeld)
      = [⟨.takeMaps, true⟩, ⟨.statsEmit "worker.metrics_processed_total", true⟩,
         ⟨.installFreshMaps, true⟩, ⟨.resetCounter, true⟩] ∧
    workerFlushEvents.all (fun e => !(isAggFlush e.ev) || !e.lockHeld) = true ∧
    workerFlushEvents.all
      (fun e => !(isEmission e.ev) || !e.lockHeld
          || (e.ev == .statsEmit "worker.metrics_processed_total")) = true := by
  exact ⟨by decide, by decide, by decide⟩

/-- C6: when the combined record sequence is empty, `Server.Flush` emits
only the post-metrics gauge and an informational no-op log: no chunking, no
chunk submission, and no error accounting of any kind. -/
theorem empty_flush_noop (l : List DDMetric) (L : Nat) (h : l.length = 0) :
    serverFlushEvents l L
      = [.statsGauge "flush.post_metrics_total",
         .logInfo "Nothing to flush, skipping."] ∧
    (∀ e ∈ serverFlushEvents l L, ∀ k, e ≠ .submitChunk k) ∧
    (∀ e ∈ serverFlushEvents l L, ∀ name v, e ≠ .statsCount name v) := by
  have h0 : l = [] := List.length_eq_zero.mp h
  subst h0
  refine ⟨rfl, ?_, ?_⟩
  · intro e he k
    have he' : e = ServerEvent.statsGauge "flush.post_metrics_total"
        ∨ e = ServerEvent.logInfo "Nothing to flush, skipping." := by
      simpa [serverFlushEvents] using he
    rcases he' with rfl | rfl <;> simp
  · intro e he name v
    have he' : e = ServerEvent.statsGauge "flush.post_metrics_total"
        ∨ e = ServerEvent.logInfo "Nothing to flush, skipping." := by
      simpa [serverFlushEvents] using he
    rcases he' with rfl | rfl <;> simp

/-- Witness for C6 at the empty record sequence with limit 7. -/
theorem empty_flush_noop_witness :
    serverFlushEvents [] 7
      = [.statsGauge "flush.post_metrics_total",
         .logInfo "Nothing to flush, skipping."] :=
  (empty_flush_noop [] 7 rfl).1

/-- C7: a `flushPart` submission succeeds iff no serialization,
construction or transport error occurred and the HTTP status is
202 Accepted; each error kind fails the chunk's full record count under
its own distinct cause tag; and the outcome never depends on whether
reading the response body failed. -/
theorem flushPart_classification (ms : List DDMetric) (env : FlushPartEnv) :
    ((flushPart ms env).1 = .succeeded ↔
      (env.encodeErr = false ∧ env.buildErr = false ∧ env.transportErr = false ∧
       env.statusCode = 202)) ∧
    (env.encodeErr = true → (flushPart ms env).1 = .failed .json ms.length) ∧
    (env.encodeErr = false → env.buildErr = true →
      (flushPart ms env).1 = .failed .construct ms.length) ∧
    (env.encodeErr = false → env.buildErr = false → env.transportErr = true →
      (flushPart ms env).1 = .failed .io ms.length) ∧
    (env.encodeErr = false → env.buildErr = false → env.transportErr = false →
      env.statusCode ≠ 202 →
      (flushPart ms env).1 = .failed (.status env.statusCode) ms.length) ∧
    ((flushPart ms env).1
      = (flushPart ms { env with bodyReadErr := !env.bodyReadErr }).1) ∧
    (FailCause.json ≠ .construct ∧ FailCause.json ≠ .io ∧
     FailCause.json ≠ .status env.statusCode ∧ FailCause.construct ≠ .io ∧
     FailCause.construct ≠ .status env.statusCode ∧
     FailCause.io ≠ .status env.statusCode) := by
  obtain ⟨e, b, t, sc, br⟩ := env
  cases e <;> cases b <;> cases t <;> cases br <;>
    by_cases hsc : sc = 202 <;> simp_all [flushPart]

/-- Witness for C7: concrete environments exercising a serialization
failure, a backend rejection with status 500, and a success where only the
body read failed. -/
theorem flushPart_classification_witness :
    (flushPart (sampleRecords 3) ⟨true, false, false, 202, false⟩).1
        = .failed .json (sampleRecords 3).length ∧
    (flushPart (sampleRecords 3) ⟨false, false, false, 500, false⟩).1
        = .failed (.status 500) (sampleRecords 3).length ∧
    (flushPart (sampleRecords 3) ⟨false, false, false, 202, true⟩).1 = .succeeded :=
  ⟨(flushPart_classification (sampleRecords 3) ⟨true, false, false, 202, false⟩).2.1 rfl,
   (flushPart_classification (sampleRecords 3) ⟨false, false, false, 500, false⟩).2.2.2.2.1
      rfl rfl rfl (by decide),
   (flushPart_classification (sampleRecords 3) ⟨false, false, false, 202, true⟩).1.mpr
      ⟨rfl, rfl, rfl, rfl⟩⟩

/-- C8: in the serialized model induced by the worker's mutex (each
`ProcessMetric` call and the flush's swap are atomic critical sections, so
every interleaving is a serialization), no observation is lost or
double-counted across the swap boundary: the observations ingested before
the swap are all present (exactly once each) in the snapshot the flush
output is computed from, the post-swap state holds no samples, and the
observations ingested after the swap are exactly what the next flush
sees. -/
theorem swap_boundary_no_loss (w : Worker) (before after : List Metric)
    (interval : Rat)
    (hb : ∀ m ∈ before, wellFormed m = true)
    (ha : ∀ m ∈ after, wellFormed m = true) :
    ∃ wb wa,
      processAll w before = some wb ∧
      sampleCount wb = sampleCount w + before.length ∧
      wb.metrics = w.metrics + before.length ∧
      (workerFlush wb interval).1 = accumulatedRecords wb interval ∧
      sampleCount (workerFlush wb interval).2.1 = 0 ∧
      (workerFlush wb interval).2.1.metrics = 0 ∧
      processAll (workerFlush wb interval).2.1 after = some wa ∧
      sampleCount wa = after.length ∧
      wa.metrics = after.length := by
  obtain ⟨wb, h1, h2, h3⟩ := processAll_wellFormed before w hb
  obtain ⟨wa, h4, h5, h6⟩ := processAll_wellFormed after (workerFlush wb interval).2.1 ha
  have hz : sampleCount (workerFlush wb interval).2.1 = 0 := rfl
  have hzm : (workerFlush wb interval).2.1.metrics = 0 := rfl
  exact ⟨wb, wa, h1, h2, h3, rfl, hz, hzm, h4, by omega, by omega⟩

/-- Witness for C8: one counter observation before the swap and one gauge
observation after it, on a fresh worker. -/
theorem swap_boundary_no_loss_witness :
    (processAll w0 [mCounter]).map sampleCount = some 1 := by
  obtain ⟨wb, wa, h1, h2, -⟩ :=
    swap_boundary_no_loss w0 [mCounter] [mGauge] 10 (by decide) (by decide)
  rw [h1, Option.map_some']
  have hw0 : sampleCount w0 = 0 := rfl
  have hl : ([mCounter] : List Metric).length = 1 := rfl
  rw [h2, hw0, hl]

/-- C10: `ProcessMetric` has an unchecked precondition that an
observation's dynamic value matches its kind (a float for counter, gauge,
histogram and timer; a string for set); on a known kind with a mismatched
value the type assertion panics (`none`) instead of dropping the
observation with a diagnostic. -/
theorem value_type_mismatch_panics (w : Worker) (m : Metric)
    (hk : m.mtype ∈ ["counter", "gauge", "histogram", "set", "timer"])
    (hw : wellFormed m = false) :
    processMetric w m = none := by
  simp only [List.mem_cons, List.not_mem_nil, or_false] at hk
  rcases hk with h | h | h | h | h <;> rcases hm : m.value with v | s <;>
    simp_all [wellFormed, processMetric]

/-- Witness for C10: a counter observation carrying a string value panics
on a concrete worker. -/
theorem value_type_mismatch_panics_witness :
    processMetric w0 mBadCounter = none :=
  value_type_mismatch_panics w0 mBadCounter (by decide) (by decide)

end Veneur
